import Mathlib

/- Verification of the Taxi Data API repository: the trajectory query
   repository (paged/filtered taxi list, per-taxi trajectory by date,
   latest-point-per-taxi), the bulk GPS ingestion pipeline, and the Flask
   routing layer of src/app/app.py.  The repository's controller module is
   not part of the source tree; its operations are modelled from the spec
   (each such definition is marked), while the routing layer is embedded
   directly from src/app/app.py. -/

namespace TaxiApi

/-- A taxi row: unique integer `id` and a descriptive `plate` (spec §3). -/
structure Taxi where
  id : Nat
  plate : String
deriving DecidableEq, Repr

/-- A GPS trajectory point (spec §3): owned by one taxi, timestamped,
positioned.  `timestamp` is seconds since an epoch; its calendar-day
component is `dayOf timestamp`.  Coordinates are carried as scaled
integers; no claim depends on their arithmetic. -/
structure TrajectoryPoint where
  taxi_id : Nat
  timestamp : Nat
  latitude : Int
  longitude : Int
deriving DecidableEq, Repr

/-- Calendar-day component of a timestamp measured in seconds. -/
def dayOf (t : Nat) : Nat := t / 86400

/-- A paged result record `{items, page, limit, total}` (spec §4.2). -/
structure Paged (α : Type) where
  items : List α
  page : Nat
  limit : Nat
  total : Nat
deriving DecidableEq, Repr

/-- Offset pagination window: skip `(page-1)*limit` rows, return `limit`
rows (spec §4.2 operation 1 and glossary). -/
def paginate {α : Type} (page limit : Nat) (l : List α) : List α :=
  (l.drop ((page - 1) * limit)).take limit

/-- Characters of a string, lower-cased. -/
def lowerChars (s : String) : List Char := s.toList.map Char.toLower

/-- Substring test on character lists: `containsSub q s` holds when `q`
occurs contiguously inside `s`. -/
def containsSub (q : List Char) : List Char → Bool
  | [] => q.isEmpty
  | c :: rest => q.isPrefixOf (c :: rest) || containsSub q rest

/-- Case-insensitive substring match of `q` against `s` (spec §4.2:
"case-insensitive substring/partial match"). -/
def containsCI (s q : String) : Bool := containsSub (lowerChars q) (lowerChars s)

/-- Ordering of taxis by ascending `id` (spec §4.2: deterministic sort
key, ascending `id`). -/
def taxiLe (a b : Taxi) : Prop := a.id ≤ b.id

instance : DecidableRel taxiLe := fun a b => Nat.decLe a.id b.id

instance : IsTotal Taxi taxiLe := ⟨fun a b => Nat.le_total a.id b.id⟩

instance : IsTrans Taxi taxiLe := ⟨fun _ _ _ h h' => Nat.le_trans h h'⟩

/-- Taxis sorted by ascending `id`. -/
def sortTaxis (l : List Taxi) : List Taxi := List.insertionSort taxiLe l

/-- Modelled from the spec: `select_taxi` of the controller module (absent
from the source tree; spec §4.2 operation 1).  Filters taxis by a
case-insensitive substring match of `query` against `plate`, sorts by
ascending `id`, and returns the offset-paginated window together with the
page, limit and total count of matching rows. -/
def select_taxi (db : List Taxi) (page limit : Nat) (query : String) :
    Paged Taxi :=
  let filtered := db.filter (fun t => containsCI t.plate query)
  { items := paginate page limit (List.insertionSort taxiLe filtered)
    page := page
    limit := limit
    total := filtered.length }

/-- Ordering of trajectory points by ascending `timestamp`. -/
def ptLe (p q : TrajectoryPoint) : Prop := p.timestamp ≤ q.timestamp

instance : DecidableRel ptLe := fun p q => Nat.decLe p.timestamp q.timestamp

instance : IsTotal TrajectoryPoint ptLe :=
  ⟨fun p q => Nat.le_total p.timestamp q.timestamp⟩

instance : IsTrans TrajectoryPoint ptLe :=
  ⟨fun _ _ _ h h' => Nat.le_trans h h'⟩

/-- Does a timestamp fall on the requested calendar day?  `none` models the
empty `date` string of the HTTP layer ("all dates"). -/
def dateMatches (date : Option Nat) (t : Nat) : Bool :=
  match date with
  | none => true
  | some d => dayOf t == d

/-- Modelled from the spec: `select_trajectories` of the controller module
(absent from the source tree; spec §4.2 operation 2).  Returns the stored
points of taxi `tid`, restricted to the calendar day `date` when one is
supplied (`none` models the empty date string), ordered ascending by
`timestamp`. -/
def select_trajectories (pts : List TrajectoryPoint) (tid : Nat)
    (date : Option Nat) : List TrajectoryPoint :=
  List.insertionSort ptLe
    (pts.filter (fun p => p.taxi_id == tid && dateMatches date p.timestamp))

/-- Maximum-timestamp point of a list; on a timestamp tie the earlier
element of the list wins, so the choice is deterministic (spec §4.2
operation 3 tie-break). -/
def pickLatest : List TrajectoryPoint → Option TrajectoryPoint
  | [] => none
  | p :: ps =>
    match pickLatest ps with
    | none => some p
    | some q => if p.timestamp < q.timestamp then some q else some p

/-- Latest point recorded for taxi `tid`, if it has any. -/
def latestPoint (tid : Nat) (pts : List TrajectoryPoint) :
    Option TrajectoryPoint :=
  pickLatest (pts.filter (fun p => p.taxi_id == tid))

/-- Deduplicated latest-per-taxi result set: one `(taxi, point)` row for
every taxi that has at least one point, in ascending-`id` taxi order. -/
def latestRows (taxis : List Taxi) (pts : List TrajectoryPoint) :
    List (Taxi × TrajectoryPoint) :=
  (sortTaxis taxis).filterMap
    (fun t => (latestPoint t.id pts).map (fun p => (t, p)))

/-- Modelled from the spec: `select_last_trajectorie_by_taxi` of the
controller module (absent from the source tree; spec §4.2 operation 3).
Pagination applies to the deduplicated per-taxi result set with the same
offset semantics as operation 1. -/
def select_last_trajectorie_by_taxi (taxis : List Taxi)
    (pts : List TrajectoryPoint) (page limit : Nat) :
    Paged (Taxi × TrajectoryPoint) :=
  { items := paginate page limit (latestRows taxis pts)
    page := page
    limit := limit
    total := (latestRows taxis pts).length }

/-- A value bound to an insert parameter: integer or string, mirroring the
parsed field types of the ingestion test data. -/
inductive Value where
  | intV : Int → Value
  | strV : String → Value
deriving DecidableEq, Repr

/-- One parameterized SQL statement handed to the storage adapter: its text
and its named parameter bindings. -/
structure Stmt where
  sql : String
  params : List (String × Value)
deriving DecidableEq, Repr

/-- Text of a parameterized insert, as pinned by
`test_insert_data_to_db_taxis`:
`INSERT INTO <table> (<cols>) VALUES (:<col>, ...)`. -/
def insertSQL (table : String) (cols : List String) : String :=
  "INSERT INTO " ++ table ++ " (" ++ String.intercalate ", " cols ++
    ") VALUES (" ++
    String.intercalate ", " (cols.map (fun c => ":" ++ c)) ++ ")"

/-- Modelled from the spec: the Load stage of `insert_data_to_db` of the
ingestion module (absent from the source tree; spec §4.3 stage 2 and the
expected calls of `test_insert_data_to_db_taxis`).  For every row, one
parameterized insert against the destination table, binding each column
name to its parsed value, in row order. -/
def insert_data_to_db (table : String) (cols : List String)
    (data : List (List Value)) : List Stmt :=
  data.map (fun row => { sql := insertSQL table cols, params := cols.zip row })

/-- Accumulate decimal digits into a natural number. -/
def digitsToNat (cs : List Char) : Nat :=
  cs.foldl (fun a c => a * 10 + (c.toNat - 48)) 0

/-- Parse a non-empty all-digit character list as a natural number. -/
def parseNatChars : List Char → Option Nat
  | [] => none
  | cs => if cs.all Char.isDigit then some (digitsToNat cs) else none

/-- Parse an optionally-negated decimal integer; anything else is `none`
(the failure path of an `int(...)` conversion). -/
def parseIntChars (cs : List Char) : Option Int :=
  match cs with
  | '-' :: rest => (parseNatChars rest).map (fun n => -(n : Int))
  | _ => (parseNatChars cs).map (fun n => (n : Int))

/-- Parse one delimited field: an integer when it reads as one, otherwise
the raw string (the type inference applied to the test's CSV data). -/
def parseField (s : String) : Value :=
  match parseIntChars s.toList with
  | some n => Value.intV n
  | none => Value.strV s

/-- Split a character list on a separator character; no quoting, no
escapes, mirroring a plain `sep`-delimited read. -/
def splitOnChar (sep : Char) : List Char → List (List Char)
  | [] => [[]]
  | c :: rest =>
    if c == sep then [] :: splitOnChar sep rest
    else
      match splitOnChar sep rest with
      | [] => [[c]]
      | h :: t => (c :: h) :: t

/-- Modelled from the spec: the Parse stage of `open_file_and_insert_data`
(absent from the source tree; spec §4.3 stage 1 and
`test_open_file_and_insert_data_taxis`).  Reads a delimited text file with
no header row: one IngestionRow per non-empty line, fields split on `sep`,
each field parsed positionally. -/
def parseFile (sep : Char) (content : String) : List (List Value) :=
  ((splitOnChar '\n' content.toList).filter (fun l => !l.isEmpty)).map
    (fun line => (splitOnChar sep line).map (fun cs => parseField (String.mk cs)))

/-- Modelled from the spec: `open_file_and_insert_data` (absent from the
source tree; spec §4.3).  Parses the file, then hands the parsed rows,
unchanged and in file order, to the Load stage in a single call. -/
def open_file_and_insert_data (table : String) (cols : List String)
    (sep : Char) (content : String) : List Stmt :=
  insert_data_to_db table cols (parseFile sep content)

/-- Errors surfaced by the storage adapter (spec §4.1, §7): a constraint
violation such as a duplicate primary key is a `statementError`. -/
inductive IngestError where
  | statementError
deriving DecidableEq, Repr

/-- Modelled from the spec: row-at-a-time execution of the taxi-table
inserts against the backing store (spec §4.3 design rule).  `committed` is
the durable table state keyed by primary key `id`.  Each row commits
immediately; a duplicate primary key raises `statementError`, already
committed rows stay, and no later row is attempted (fail-fast, no
rollback, no skip-and-continue). -/
def ingestTaxiRows (committed : List Taxi) :
    List Taxi → List Taxi × Option IngestError
  | [] => (committed, none)
  | r :: rest =>
    if (committed.map Taxi.id).contains r.id then
      (committed, some IngestError.statementError)
    else
      ingestTaxiRows (committed ++ [r]) rest

/-- Query string of an HTTP request: ordered key/value pairs. -/
abbrev Args := List (String × String)

/-- First value bound to `key`, as Flask's `request.args.get` sees it. -/
def lookupArg (args : Args) (key : String) : Option String :=
  (args.find? (fun kv => kv.1 == key)).map (fun kv => kv.2)

/-- Integer conversion applied by `request.args.get(..., type=int)`. -/
def parseIntArg (s : String) : Option Int := parseIntChars s.toList

/-- Flask `args.get(key, default=dflt, type=int)`: the parsed integer when
the parameter is present and converts, the default otherwise. -/
def argsGetInt (args : Args) (key : String) (dflt : Int) : Int :=
  match lookupArg args key with
  | none => dflt
  | some s => (parseIntArg s).getD dflt

/-- Flask `args.get(key, default=dflt, type=str)`. -/
def argsGetStr (args : Args) (key : String) (dflt : String) : String :=
  (lookupArg args key).getD dflt

/-- The `/taxis` route of src/app/app.py (`get_taxi`, lines 47-60): the
argument tuple `(page, limit, query)` it passes to `select_taxi`. -/
def get_taxi (args : Args) : Int × Int × String :=
  (argsGetInt args "page" 1, argsGetInt args "limit" 10,
    argsGetStr args "query" "")

/-- The `/trajectories/<int:taxi_id>` route of src/app/app.py
(`get_trajectories`, lines 62-74): the argument tuple `(taxi_id, date)` it
passes to `select_trajectories`. -/
def get_trajectories (taxi_id : Int) (args : Args) : Int × String :=
  (taxi_id, argsGetStr args "date" "")

/-- The `/trajectories/latest` route of src/app/app.py
(`get_latest_trajectories`, lines 76-87): the argument tuple
`(page, limit)` it passes to `select_last_trajectorie_by_taxi`. -/
def get_latest_trajectories (args : Args) : Int × Int :=
  (argsGetInt args "page" 1, argsGetInt args "limit" 10)

/-- Concrete fleet of spec §8's latest-per-taxi scenario. -/
def scenarioTaxis : List Taxi := [⟨1, "ABC123"⟩, ⟨2, "DEF456"⟩]

/-- Concrete point store of spec §8's latest-per-taxi scenario: taxi 1 has
two points (the later at timestamp 200), taxi 2 has one. -/
def scenarioPts : List TrajectoryPoint :=
  [⟨1, 100, 399, 1163⟩, ⟨1, 200, 3991, 11631⟩, ⟨2, 300, 398, 1162⟩]

/-! Helper lemmas shared by the claim theorems. -/

theorem containsSub_nil_left (l : List Char) : containsSub [] l = true := by
  cases l with
  | nil => rfl
  | cons c rest => rfl

theorem containsCI_empty (s : String) : containsCI s "" = true := by
  unfold containsCI
  rw [show lowerChars "" = [] from rfl]
  exact containsSub_nil_left _

theorem pickLatest_cons_none {a : TrajectoryPoint} {l : List TrajectoryPoint}
    (hq : pickLatest l = none) : pickLatest (a :: l) = some a := by
  simp only [pickLatest, hq]

theorem pickLatest_cons_lt {a q : TrajectoryPoint} {l : List TrajectoryPoint}
    (hq : pickLatest l = some q) (ht : a.timestamp < q.timestamp) :
    pickLatest (a :: l) = some q := by
  simp only [pickLatest, hq]
  rw [if_pos ht]

theorem pickLatest_cons_ge {a q : TrajectoryPoint} {l : List TrajectoryPoint}
    (hq : pickLatest l = some q) (ht : ¬a.timestamp < q.timestamp) :
    pickLatest (a :: l) = some a := by
  simp only [pickLatest, hq]
  rw [if_neg ht]

theorem pickLatest_eq_none {l : List TrajectoryPoint}
    (h : pickLatest l = none) : l = [] := by
  cases l with
  | nil => rfl
  | cons a l =>
    exfalso
    cases hq : pickLatest l with
    | none => rw [pickLatest_cons_none hq] at h; exact Option.noConfusion h
    | some q =>
      by_cases ht : a.timestamp < q.timestamp
      · rw [pickLatest_cons_lt hq ht] at h; exact Option.noConfusion h
      · rw [pickLatest_cons_ge hq ht] at h; exact Option.noConfusion h

theorem pickLatest_mem {l : List TrajectoryPoint} :
    ∀ {p : TrajectoryPoint}, pickLatest l = some p → p ∈ l := by
  induction l with
  | nil => intro p h; exact Option.noConfusion h
  | cons a l ih =>
    intro p h
    cases hq : pickLatest l with
    | none =>
      rw [pickLatest_cons_none hq] at h
      rw [← Option.some.inj h]
      exact List.mem_cons_self a l
    | some q =>
      by_cases ht : a.timestamp < q.timestamp
      · rw [pickLatest_cons_lt hq ht] at h
        rw [← Option.some.inj h]
        exact List.mem_cons_of_mem a (ih hq)
      · rw [pickLatest_cons_ge hq ht] at h
        rw [← Option.some.inj h]
        exact List.mem_cons_self a l

theorem pickLatest_max {l : List TrajectoryPoint} :
    ∀ {p : TrajectoryPoint}, pickLatest l = some p →
      ∀ q ∈ l, q.timestamp ≤ p.timestamp := by
  induction l with
  | nil => intro p h; exact Option.noConfusion h
  | cons a l ih =>
    intro p h x hx
    cases hq : pickLatest l with
    | none =>
      rw [pickLatest_cons_none hq] at h
      have hl : l = [] := pickLatest_eq_none hq
      subst hl
      rcases List.mem_cons.mp hx with hxa | hxl
      · rw [hxa, ← Option.some.inj h]
      · exact absurd hxl (List.not_mem_nil x)
    | some q =>
      by_cases ht : a.timestamp < q.timestamp
      · rw [pickLatest_cons_lt hq ht] at h
        cases Option.some.inj h
        rcases List.mem_cons.mp hx with hxa | hxl
        · rw [hxa]
          exact Nat.le_of_lt ht
        · exact ih hq x hxl
      · rw [pickLatest_cons_ge hq ht] at h
        cases Option.some.inj h
        rcases List.mem_cons.mp hx with hxa | hxl
        · rw [hxa]
        · exact Nat.le_trans (ih hq x hxl) (Nat.le_of_not_lt ht)

theorem latestPoint_spec {tid : Nat} {pts : List TrajectoryPoint}
    {p : TrajectoryPoint} (h : latestPoint tid pts = some p) :
    p ∈ pts ∧ p.taxi_id = tid ∧
      ∀ q ∈ pts, q.taxi_id = tid → q.timestamp ≤ p.timestamp := by
  unfold latestPoint at h
  have hmem := List.mem_filter.mp (pickLatest_mem h)
  refine ⟨hmem.1, by simpa using hmem.2, fun q hq hqt => ?_⟩
  exact pickLatest_max h q (List.mem_filter.mpr ⟨hq, by simpa using hqt⟩)

theorem latestPoint_isSome {tid : Nat} {pts : List TrajectoryPoint}
    {p0 : TrajectoryPoint} (h0 : p0 ∈ pts) (ht : p0.taxi_id = tid) :
    ∃ p, latestPoint tid pts = some p := by
  unfold latestPoint
  cases hq : pickLatest (pts.filter (fun p => p.taxi_id == tid)) with
  | some p => exact ⟨p, rfl⟩
  | none =>
    exfalso
    have : p0 ∈ pts.filter (fun p => p.taxi_id == tid) :=
      List.mem_filter.mpr ⟨h0, by simpa using ht⟩
    rw [pickLatest_eq_none hq] at this
    exact List.not_mem_nil p0 this

theorem mem_latestRows {taxis : List Taxi} {pts : List TrajectoryPoint}
    {pr : Taxi × TrajectoryPoint} :
    pr ∈ latestRows taxis pts ↔
      pr.1 ∈ sortTaxis taxis ∧ latestPoint pr.1.id pts = some pr.2 := by
  unfold latestRows
  rw [List.mem_filterMap]
  constructor
  · rintro ⟨t, htm, hf⟩
    rcases Option.map_eq_some'.mp hf with ⟨p, hp, hpr⟩
    rw [← hpr]
    exact ⟨htm, hp⟩
  · rintro ⟨h1, h2⟩
    exact ⟨pr.1, h1, by rw [h2]; rfl⟩

theorem mem_sortTaxis {taxis : List Taxi} {t : Taxi} :
    t ∈ sortTaxis taxis ↔ t ∈ taxis :=
  (List.perm_insertionSort taxiLe taxis).mem_iff

theorem sortTaxis_ids_nodup {taxis : List Taxi}
    (hnd : (taxis.map Taxi.id).Nodup) :
    ((sortTaxis taxis).map Taxi.id).Nodup :=
  (((List.perm_insertionSort taxiLe taxis).map Taxi.id).symm).nodup hnd

/-! Claim theorems. -/

/-- C2: bulk ingestion is fail-fast and non-transactional.  If the rows
before position `k` insert cleanly (their primary keys are fresh and
mutually distinct) and row `k` has a primary key already present — as when
re-ingesting a file whose keys exist — then execution stops at row `k`
with a `statementError`: rows `1..k-1` remain committed, no row after `k`
is attempted, and the error is surfaced to the caller. -/
theorem ingestion_fail_fast (committed pre post : List Taxi) (r : Taxi)
    (hnd : ((committed ++ pre).map Taxi.id).Nodup)
    (hr : r.id ∈ (committed ++ pre).map Taxi.id) :
    ingestTaxiRows committed (pre ++ r :: post) =
      (committed ++ pre, some IngestError.statementError) := by
  induction pre generalizing committed with
  | nil =>
    rw [List.append_nil] at hnd hr ⊢
    rw [List.nil_append]
    have hc : (committed.map Taxi.id).contains r.id = true := by simp [hr]
    rw [ingestTaxiRows, hc]
    rfl
  | cons a pre ih =>
    have hassoc : committed ++ a :: pre = (committed ++ [a]) ++ pre := by
      simp
    have hna : a.id ∉ committed.map Taxi.id := by
      intro hmem
      rw [List.map_append] at hnd
      exact (List.nodup_append.mp hnd).2.2 hmem (by simp)
    have hc : (committed.map Taxi.id).contains a.id = false := by simp [hna]
    rw [List.cons_append, ingestTaxiRows, hc]
    rw [hassoc] at hnd hr ⊢
    exact ih (committed ++ [a]) hnd hr

/-- C2 witness: re-ingesting the two-row taxis file into a table already
holding both rows fails on the first duplicate with a `statementError`,
leaves the committed rows untouched, and never attempts the second row. -/
theorem ingestion_fail_fast_witness :
    ((([Taxi.mk 1 "ABC123", Taxi.mk 2 "DEF456"] ++ ([] : List Taxi)).map
        Taxi.id).Nodup) ∧
    (Taxi.mk 1 "ABC123").id ∈
      (([Taxi.mk 1 "ABC123", Taxi.mk 2 "DEF456"] ++ ([] : List Taxi)).map
        Taxi.id) ∧
    ingestTaxiRows [Taxi.mk 1 "ABC123", Taxi.mk 2 "DEF456"]
        ([] ++ Taxi.mk 1 "ABC123" :: [Taxi.mk 2 "DEF456"]) =
      ([Taxi.mk 1 "ABC123", Taxi.mk 2 "DEF456"] ++ ([] : List Taxi),
        some IngestError.statementError) :=
  ⟨by decide, by decide,
    ingestion_fail_fast [Taxi.mk 1 "ABC123", Taxi.mk 2 "DEF456"] []
      [Taxi.mk 2 "DEF456"] (Taxi.mk 1 "ABC123") (by decide) (by decide)⟩

/-- C3: ingesting the file rows `1,ABC123` and `2,DEF456` into table
`taxis` with column mapping `(id, plate)` issues exactly two parameterized
inserts, each binding `id` and `plate` to the parsed values of its line,
in file order. -/
theorem ingestion_two_inserts :
    insert_data_to_db "taxis" ["id", "plate"]
        [[Value.intV 1, Value.strV "ABC123"],
          [Value.intV 2, Value.strV "DEF456"]] =
      [⟨"INSERT INTO taxis (id, plate) VALUES (:id, :plate)",
          [("id", Value.intV 1), ("plate", Value.strV "ABC123")]⟩,
        ⟨"INSERT INTO taxis (id, plate) VALUES (:id, :plate)",
          [("id", Value.intV 2), ("plate", Value.strV "DEF456")]⟩] := by
  decide

/-- C7: an unknown taxi or one with no recorded points yields an empty
sequence, not an error: `select_trajectories` returns `[]` whenever no
stored point belongs to the requested taxi, and the latest-per-taxi
operation over an empty point store has an empty item list.  Both
operations are total functions into plain result values; no NotFound-style
error value exists on their result paths. -/
theorem empty_trajectory_result (pts : List TrajectoryPoint) (tid : Nat)
    (date : Option Nat) (h : ∀ p ∈ pts, p.taxi_id ≠ tid) :
    select_trajectories pts tid date = [] ∧
    ∀ (taxis : List Taxi) (page limit : Nat),
      (select_last_trajectorie_by_taxi taxis ([] : List TrajectoryPoint)
        page limit).items = [] := by
  constructor
  · unfold select_trajectories
    have hf : pts.filter
        (fun p => p.taxi_id == tid && dateMatches date p.timestamp) = [] := by
      rw [List.filter_eq_nil_iff]
      intro p hp
      simp [h p hp]
    rw [hf]
    rfl
  · intro taxis page limit
    have hl : latestRows taxis [] = [] := by
      unfold latestRows
      rw [List.filterMap_eq_nil_iff]
      intro t ht
      rfl
    simp [select_last_trajectorie_by_taxi, paginate, hl]

/-- C7 witness: taxi 1 has no point in a store holding only taxi 2's
point, and the operation returns the empty list without error. -/
theorem empty_trajectory_result_witness :
    (∀ p ∈ [TrajectoryPoint.mk 2 100 0 0], p.taxi_id ≠ 1) ∧
    (select_trajectories [TrajectoryPoint.mk 2 100 0 0] 1 none = [] ∧
      ∀ (taxis : List Taxi) (page limit : Nat),
        (select_last_trajectorie_by_taxi taxis ([] : List TrajectoryPoint)
          page limit).items = []) :=
  ⟨by decide,
    empty_trajectory_result [TrajectoryPoint.mk 2 100 0 0] 1 none (by decide)⟩

/-- C10: absent or unparseable request parameters fall back to fixed
defaults: with no query parameters, `/taxis` passes `(1, 10, "")` to
`select_taxi`, `/trajectories/latest` passes `(1, 10)` to
`select_last_trajectorie_by_taxi`, `/trajectories/<taxi_id>` passes
`date = ""` to `select_trajectories`; non-integer `page`/`limit`
strings likewise yield the defaults. -/
theorem default_parameters (args : Args) (tid : Int) (s t : String)
    (h1 : lookupArg args "page" = none) (h2 : lookupArg args "limit" = none)
    (h3 : lookupArg args "query" = none) (h4 : lookupArg args "date" = none)
    (h5 : parseIntArg s = none) (h6 : parseIntArg t = none) :
    get_taxi args = (1, 10, "") ∧
    get_latest_trajectories args = (1, 10) ∧
    get_trajectories tid args = (tid, "") ∧
    get_taxi [("page", s), ("limit", t)] = (1, 10, "") ∧
    get_latest_trajectories [("page", s), ("limit", t)] = (1, 10) := by
  refine ⟨?_, ?_, ?_, ?_, ?_⟩
  · simp [get_taxi, argsGetInt, argsGetStr, h1, h2, h3]
  · simp [get_latest_trajectories, argsGetInt, h1, h2]
  · simp [get_trajectories, argsGetStr, h4]
  · simp [get_taxi, argsGetInt, argsGetStr, lookupArg, List.find?, h5, h6]
  · simp [get_latest_trajectories, argsGetInt, lookupArg, List.find?, h5, h6]

/-- C10 witness: an empty query string and the non-integer values `"abc"`
and `""` all produce the default argument tuples. -/
theorem default_parameters_witness :
    lookupArg [] "page" = none ∧ lookupArg [] "limit" = none ∧
    lookupArg [] "query" = none ∧ lookupArg [] "date" = none ∧
    parseIntArg "abc" = none ∧ parseIntArg "" = none ∧
    (get_taxi [] = (1, 10, "") ∧
      get_latest_trajectories [] = (1, 10) ∧
      get_trajectories 7 [] = (7, "") ∧
      get_taxi [("page", "abc"), ("limit", "")] = (1, 10, "") ∧
      get_latest_trajectories [("page", "abc"), ("limit", "")] = (1, 10)) :=
  ⟨by decide, by decide, by decide, by decide, by decide, by decide,
    default_parameters [] 7 "abc" "" (by decide) (by decide) (by decide)
      (by decide) (by decide) (by decide)⟩

/-- C8 counterexample: the routing layer of src/app/app.py does not reject
`page < 1` or `limit < 1`.  A request with `page=0&limit=-3` is accepted
and `select_taxi` is invoked with `page = 0` and `limit = -3`, violating
the claimed bound `page ≥ 1`. -/
theorem page_bound_counterexample :
    get_taxi [("page", "0"), ("limit", "-3")] = (0, -3, "") ∧
    get_latest_trajectories [("page", "0"), ("limit", "-3")] = (0, -3) ∧
    ¬(1 ≤ (get_taxi [("page", "0"), ("limit", "-3")]).1) := by
  decide

/-- C8 amended: the routing layer substitutes defaults for missing or
non-integer `page`/`limit` but performs no bound validation: whenever the
parameters parse as integers, those integers — including values below 1 —
are passed through unchanged to `select_taxi` and
`select_last_trajectorie_by_taxi`. -/
theorem page_limit_passed_through (args : Args) (s t : String) (n m : Int)
    (h1 : lookupArg args "page" = some s) (h2 : parseIntArg s = some n)
    (h3 : lookupArg args "limit" = some t) (h4 : parseIntArg t = some m) :
    (get_taxi args).1 = n ∧ (get_taxi args).2.1 = m ∧
    get_latest_trajectories args = (n, m) := by
  refine ⟨?_, ?_, ?_⟩ <;>
    simp [get_taxi, get_latest_trajectories, argsGetInt, h1, h2, h3, h4]

/-- C8 amended witness: `page=0&limit=-3` reaches the repository as
`(0, -3)`. -/
theorem page_limit_passed_through_witness :
    lookupArg [("page", "0"), ("limit", "-3")] "page" = some "0" ∧
    parseIntArg "0" = some 0 ∧
    lookupArg [("page", "0"), ("limit", "-3")] "limit" = some "-3" ∧
    parseIntArg "-3" = some (-3) ∧
    ((get_taxi [("page", "0"), ("limit", "-3")]).1 = 0 ∧
      (get_taxi [("page", "0"), ("limit", "-3")]).2.1 = -3 ∧
      get_latest_trajectories [("page", "0"), ("limit", "-3")] = (0, -3)) :=
  ⟨by decide, by decide, by decide, by decide,
    page_limit_passed_through [("page", "0"), ("limit", "-3")] "0" "-3" 0 (-3)
      (by decide) (by decide) (by decide) (by decide)⟩

/-- C5: every item returned by `select_taxi` matches the query as a
case-insensitive substring of its plate, and an empty query imposes no
filter: the items are exactly the requested page window over all taxis
(sorted by ascending `id`) and the reported total is the whole store. -/
theorem filter_correctness (db : List Taxi) (page limit : Nat) (q : String) :
    (∀ t ∈ (select_taxi db page limit q).items, containsCI t.plate q = true) ∧
    (select_taxi db page limit "").items =
      paginate page limit (List.insertionSort taxiLe db) ∧
    (select_taxi db page limit "").total = db.length := by
  have hself : db.filter (fun t => containsCI t.plate "") = db :=
    List.filter_eq_self.mpr (fun a _ => containsCI_empty a.plate)
  refine ⟨?_, ?_, ?_⟩
  · intro t ht
    simp only [select_taxi, paginate] at ht
    have h1 : t ∈ List.insertionSort taxiLe
        (db.filter (fun t => containsCI t.plate q)) :=
      List.mem_of_mem_drop (List.mem_of_mem_take ht)
    have h2 : t ∈ db.filter (fun t => containsCI t.plate q) :=
      ((List.perm_insertionSort taxiLe _).mem_iff).mp h1
    exact (List.mem_filter.mp h2).2
  · simp only [select_taxi, hself]
  · simp only [select_taxi, hself]

/-- C5 witness: the query `"bc1"` matches only the plate `ABC123`
case-insensitively, and the empty query returns the full sorted store. -/
theorem filter_correctness_witness :
    (∀ t ∈ (select_taxi [Taxi.mk 1 "ABC123", Taxi.mk 2 "DEF456"] 1 10
        "bc1").items, containsCI t.plate "bc1" = true) ∧
    (select_taxi [Taxi.mk 1 "ABC123", Taxi.mk 2 "DEF456"] 1 10 "").items =
      paginate 1 10 (List.insertionSort taxiLe
        [Taxi.mk 1 "ABC123", Taxi.mk 2 "DEF456"]) ∧
    (select_taxi [Taxi.mk 1 "ABC123", Taxi.mk 2 "DEF456"] 1 10 "").total =
      ([Taxi.mk 1 "ABC123", Taxi.mk 2 "DEF456"] : List Taxi).length :=
  filter_correctness [Taxi.mk 1 "ABC123", Taxi.mk 2 "DEF456"] 1 10 "bc1"

/-- C4: for fixed data and a fixed query, page 1 and page 2 with limit `n`
are disjoint and their in-order concatenation is page 1 with limit `2n`. -/
theorem pagination_stability (db : List Taxi) (n : Nat) (q : String)
    (_hn : 1 ≤ n) (hnd : (db.map Taxi.id).Nodup) :
    List.Disjoint (select_taxi db 1 n q).items (select_taxi db 2 n q).items ∧
    (select_taxi db 1 n q).items ++ (select_taxi db 2 n q).items =
      (select_taxi db 1 (2 * n) q).items := by
  have hLnd : (List.insertionSort taxiLe
      (db.filter (fun t => containsCI t.plate q))).Nodup := by
    have h1 : db.Nodup := List.Nodup.of_map Taxi.id hnd
    have h2 : (db.filter (fun t => containsCI t.plate q)).Nodup :=
      h1.filter _
    exact ((List.perm_insertionSort taxiLe _).symm).nodup h2
  have hitems1 : (select_taxi db 1 n q).items =
      (List.insertionSort taxiLe
        (db.filter (fun t => containsCI t.plate q))).take n := by
    simp [select_taxi, paginate]
  have hitems2 : (select_taxi db 2 n q).items =
      ((List.insertionSort taxiLe
        (db.filter (fun t => containsCI t.plate q))).drop n).take n := by
    simp [select_taxi, paginate]
  have hitems3 : (select_taxi db 1 (2 * n) q).items =
      (List.insertionSort taxiLe
        (db.filter (fun t => containsCI t.plate q))).take (2 * n) := by
    simp [select_taxi, paginate]
  constructor
  · rw [hitems1, hitems2]
    have hsplit := hLnd
    rw [← List.take_append_drop n (List.insertionSort taxiLe
      (db.filter (fun t => containsCI t.plate q)))] at hsplit
    have hdisj := (List.nodup_append.mp hsplit).2.2
    exact List.disjoint_of_subset_right (List.take_subset n _) hdisj
  · rw [hitems1, hitems2, hitems3, two_mul, List.take_add]

/-- C4 witness: with three distinct taxis and `n = 1`, pages 1 and 2 are
disjoint and concatenate to page 1 with limit 2. -/
theorem pagination_stability_witness :
    1 ≤ 1 ∧
    (([Taxi.mk 1 "ABC123", Taxi.mk 2 "DEF456",
        Taxi.mk 3 "GHI789"].map Taxi.id).Nodup) ∧
    (List.Disjoint
        (select_taxi [Taxi.mk 1 "ABC123", Taxi.mk 2 "DEF456",
          Taxi.mk 3 "GHI789"] 1 1 "").items
        (select_taxi [Taxi.mk 1 "ABC123", Taxi.mk 2 "DEF456",
          Taxi.mk 3 "GHI789"] 2 1 "").items ∧
      (select_taxi [Taxi.mk 1 "ABC123", Taxi.mk 2 "DEF456",
          Taxi.mk 3 "GHI789"] 1 1 "").items ++
        (select_taxi [Taxi.mk 1 "ABC123", Taxi.mk 2 "DEF456",
          Taxi.mk 3 "GHI789"] 2 1 "").items =
        (select_taxi [Taxi.mk 1 "ABC123", Taxi.mk 2 "DEF456",
          Taxi.mk 3 "GHI789"] 1 (2 * 1) "").items) :=
  ⟨Nat.le_refl 1, by decide,
    pagination_stability [Taxi.mk 1 "ABC123", Taxi.mk 2 "DEF456",
      Taxi.mk 3 "GHI789"] 1 "" (Nat.le_refl 1) (by decide)⟩

/-- C6: the trajectory-by-taxi operation returns exactly the stored points
of the requested taxi whose calendar day matches the supplied date (every
point when no date is supplied), ordered ascending by timestamp. -/
theorem date_filter_correctness (pts : List TrajectoryPoint) (tid : Nat)
    (date : Option Nat) :
    (select_trajectories pts tid date).Perm
      (pts.filter (fun p => p.taxi_id == tid && dateMatches date p.timestamp)) ∧
    List.Sorted ptLe (select_trajectories pts tid date) ∧
    (∀ p ∈ select_trajectories pts tid date,
      p.taxi_id = tid ∧ (date = none ∨ date = some (dayOf p.timestamp))) ∧
    (select_trajectories pts tid none).Perm
      (pts.filter (fun p => p.taxi_id == tid)) := by
  refine ⟨List.perm_insertionSort _ _, List.sorted_insertionSort _ _, ?_, ?_⟩
  · intro p hp
    have h2 : p ∈ pts.filter
        (fun p => p.taxi_id == tid && dateMatches date p.timestamp) :=
      ((List.perm_insertionSort ptLe _).mem_iff).mp hp
    have h3 := (List.mem_filter.mp h2).2
    rw [Bool.and_eq_true] at h3
    refine ⟨by simpa using h3.1, ?_⟩
    cases date with
    | none => exact Or.inl rfl
    | some d =>
      right
      have hd : dayOf p.timestamp = d := by simpa [dateMatches] using h3.2
      rw [hd]
  · have hfe : pts.filter
        (fun p => p.taxi_id == tid && dateMatches none p.timestamp) =
        pts.filter (fun p => p.taxi_id == tid) := by
      apply List.filter_congr
      intro p hp
      simp [dateMatches]
    show (List.insertionSort ptLe (pts.filter
      (fun p => p.taxi_id == tid && dateMatches none p.timestamp))).Perm
      (pts.filter (fun p => p.taxi_id == tid))
    rw [hfe]
    exact List.perm_insertionSort _ _

/-- C6 witness: taxi 1 has one point on day 0 and one on day 1; the day-1
query returns exactly the day-1 point, sorted, and the dateless query
returns both of taxi 1's points. -/
theorem date_filter_correctness_witness :
    (select_trajectories [TrajectoryPoint.mk 1 100 0 0,
        TrajectoryPoint.mk 1 86500 0 0, TrajectoryPoint.mk 2 50 0 0]
        1 (some 1)).Perm
      ([TrajectoryPoint.mk 1 100 0 0, TrajectoryPoint.mk 1 86500 0 0,
        TrajectoryPoint.mk 2 50 0 0].filter
        (fun p => p.taxi_id == 1 && dateMatches (some 1) p.timestamp)) ∧
    List.Sorted ptLe (select_trajectories [TrajectoryPoint.mk 1 100 0 0,
      TrajectoryPoint.mk 1 86500 0 0, TrajectoryPoint.mk 2 50 0 0]
      1 (some 1)) ∧
    (∀ p ∈ select_trajectories [TrajectoryPoint.mk 1 100 0 0,
        TrajectoryPoint.mk 1 86500 0 0, TrajectoryPoint.mk 2 50 0 0]
        1 (some 1),
      p.taxi_id = 1 ∧
        ((some 1 : Option Nat) = none ∨
          (some 1 : Option Nat) = some (dayOf p.timestamp))) ∧
    (select_trajectories [TrajectoryPoint.mk 1 100 0 0,
        TrajectoryPoint.mk 1 86500 0 0, TrajectoryPoint.mk 2 50 0 0]
        1 none).Perm
      ([TrajectoryPoint.mk 1 100 0 0, TrajectoryPoint.mk 1 86500 0 0,
        TrajectoryPoint.mk 2 50 0 0].filter (fun p => p.taxi_id == 1)) :=
  date_filter_correctness [TrajectoryPoint.mk 1 100 0 0,
    TrajectoryPoint.mk 1 86500 0 0, TrajectoryPoint.mk 2 50 0 0] 1 (some 1)

/-- C9: the Parse stage reads the headerless comma-delimited file
`"1,ABC123\n2,DEF456"` into rows mapped positionally to the caller's
column list `(id, plate)`, and `open_file_and_insert_data` hands exactly
those rows, in file order, to the Load stage in a single call. -/
theorem parse_then_load_scenario :
    parseFile ',' "1,ABC123\n2,DEF456" =
      [[Value.intV 1, Value.strV "ABC123"],
        [Value.intV 2, Value.strV "DEF456"]] ∧
    open_file_and_insert_data "taxis" ["id", "plate"] ',' "1,ABC123\n2,DEF456" =
      insert_data_to_db "taxis" ["id", "plate"]
        [[Value.intV 1, Value.strV "ABC123"],
          [Value.intV 2, Value.strV "DEF456"]] := by
  exact ⟨by decide, by decide⟩

/-- C1: for every taxi with at least one trajectory point, the
latest-per-taxi operation's result set holds exactly one row for that
taxi, whose point has a timestamp greater than or equal to the timestamp
of every other point recorded for the taxi; and no taxi without points
appears anywhere in the result (every result row carries one of the
taxi's own stored points). -/
theorem latest_per_taxi_correct (taxis : List Taxi)
    (pts : List TrajectoryPoint) (hnd : (taxis.map Taxi.id).Nodup) :
    (select_last_trajectorie_by_taxi taxis pts 1
        ((latestRows taxis pts).length)).items = latestRows taxis pts ∧
    (∀ T ∈ taxis, ∀ p0 ∈ pts, p0.taxi_id = T.id →
      ∃ pr ∈ latestRows taxis pts, pr.1 = T ∧ pr.2 ∈ pts ∧
        pr.2.taxi_id = T.id ∧
        (∀ q ∈ pts, q.taxi_id = T.id → q.timestamp ≤ pr.2.timestamp) ∧
        (∀ pr' ∈ latestRows taxis pts, pr'.1.id = T.id → pr' = pr)) ∧
    (∀ pr ∈ latestRows taxis pts, pr.2 ∈ pts ∧ pr.2.taxi_id = pr.1.id) := by
  have hnds : ((sortTaxis taxis).map Taxi.id).Nodup := sortTaxis_ids_nodup hnd
  refine ⟨?_, ?_, ?_⟩
  · simp [select_last_trajectorie_by_taxi, paginate]
  · intro T hT p0 hp0 hpt
    obtain ⟨p, hp⟩ := latestPoint_isSome hp0 hpt
    have hTmem : T ∈ sortTaxis taxis := mem_sortTaxis.mpr hT
    have hrow : (T, p) ∈ latestRows taxis pts := mem_latestRows.mpr ⟨hTmem, hp⟩
    obtain ⟨hpmem, hptid, hmax⟩ := latestPoint_spec hp
    refine ⟨(T, p), hrow, rfl, hpmem, hptid, hmax, ?_⟩
    intro pr' hpr' hid
    obtain ⟨h1', h2'⟩ := mem_latestRows.mp hpr'
    have hfst : pr'.1 = T := List.inj_on_of_nodup_map hnds h1' hTmem hid
    have hp2 : latestPoint T.id pts = some pr'.2 := by rw [← hfst]; exact h2'
    have hsnd : pr'.2 = p := Option.some.inj (hp2.symm.trans hp)
    exact Prod.ext hfst hsnd
  · intro pr hpr
    obtain ⟨h1, h2⟩ := mem_latestRows.mp hpr
    obtain ⟨hpmem, hptid, _⟩ := latestPoint_spec h2
    exact ⟨hpmem, hptid⟩

/-- C1 witness: on spec §8's concrete scenario, each of taxis 1 and 2 gets
exactly one row carrying its maximum-timestamp point, and every row
carries a stored point of its taxi. -/
theorem latest_per_taxi_correct_witness :
    ((scenarioTaxis.map Taxi.id).Nodup) ∧
    ((select_last_trajectorie_by_taxi scenarioTaxis scenarioPts 1
        ((latestRows scenarioTaxis scenarioPts).length)).items =
          latestRows scenarioTaxis scenarioPts ∧
      (∀ T ∈ scenarioTaxis, ∀ p0 ∈ scenarioPts, p0.taxi_id = T.id →
        ∃ pr ∈ latestRows scenarioTaxis scenarioPts, pr.1 = T ∧
          pr.2 ∈ scenarioPts ∧ pr.2.taxi_id = T.id ∧
          (∀ q ∈ scenarioPts, q.taxi_id = T.id →
            q.timestamp ≤ pr.2.timestamp) ∧
          (∀ pr' ∈ latestRows scenarioTaxis scenarioPts,
            pr'.1.id = T.id → pr' = pr)) ∧
      (∀ pr ∈ latestRows scenarioTaxis scenarioPts,
        pr.2 ∈ scenarioPts ∧ pr.2.taxi_id = pr.1.id)) :=
  ⟨by decide, latest_per_taxi_correct scenarioTaxis scenarioPts (by decide)⟩

end TaxiApi
